import Mathlib

/-!
Shallow embedding of the todo-list HTTP service (`main.go`).

The program is a CRUD layer over a Mongo collection.  We embed:

* `ObjectId` — mgo's 12-byte BSON object identifier, modelled by its
  numeric value; `IsObjectIdHex` / `ObjectIdHex` / `ObjectId.Hex` mirror
  the `gopkg.in/mgo.v2/bson` functions used by the handlers
  (`ObjectIdHex` panics in Go when the string is malformed; the handlers
  below make that panic explicit as an `Outcome.panic`).
* `todoModel` (stored shape, `_id`/`title`/`completed`/`createdAt`) and
  `todo` (wire shape).  `time.Time` is modelled as `Nat`.
* Request bodies: `json.NewDecoder(...).Decode(&t)` either fails
  (malformed body, modelled as `none`) or yields a parsed object whose
  absent fields decode to Go zero values (`decodeTodo`).
* The Mongo collection as a `List todoModel`; `InsertOne` appends,
  `UpdateOne`/`DeleteOne` with an `_id` filter touch at most one (the
  first matching) document (`updateFirst` / `deleteFirst`).  Driver
  failures are an explicit `dberr` input to each handler.
* Responses: status plus a body that is either an explicit
  `renderer.M{...}` object (`RespBody.obj`) or the JSON serialization of
  a raw Go error value handed directly to `rnd.JSON` (`RespBody.goError`
  — a `*json.SyntaxError` marshals to an object exposing only `Offset`,
  `io.EOF` to `{}`; neither carries a `message` field).
-/

namespace ToDoList

/-- mgo BSON object identifier (12 bytes), modelled by its numeric value. -/
structure ObjectId where
  val : Nat
deriving DecidableEq

/-- Is `c` one of `0-9a-fA-F`?  (the alphabet accepted by `hex.DecodeString`
and by mgo's object-id regexp). -/
def isHexChar (c : Char) : Bool :=
  (decide ('0' ≤ c) && decide (c ≤ '9')) ||
  (decide ('a' ≤ c) && decide (c ≤ 'f')) ||
  (decide ('A' ≤ c) && decide (c ≤ 'F'))

/-- `bson.IsObjectIdHex`: 24 characters, all hexadecimal. -/
def IsObjectIdHex (s : String) : Bool :=
  s.length == 24 && s.data.all isHexChar

/-- Numeric value of one hex digit. -/
def hexDigitVal (c : Char) : Nat :=
  if decide ('0' ≤ c) && decide (c ≤ '9') then c.toNat - '0'.toNat
  else if decide ('a' ≤ c) && decide (c ≤ 'f') then c.toNat - 'a'.toNat + 10
  else if decide ('A' ≤ c) && decide (c ≤ 'F') then c.toNat - 'A'.toNat + 10
  else 0

/-- `bson.ObjectIdHex`: decode a 24-char hex string to an object id.  In Go
this panics on malformed input; the handlers below model that panic
explicitly, so this function is only meaningful on valid input. -/
def ObjectIdHex (s : String) : ObjectId :=
  ⟨s.data.foldl (fun a c => a * 16 + hexDigitVal c) 0⟩

/-- Lower-case hex digit for a value `< 16`. -/
def hexChar (n : Nat) : Char :=
  if n < 10 then Char.ofNat ('0'.toNat + n) else Char.ofNat ('a'.toNat + (n - 10))

/-- `ObjectId.Hex`: the canonical 24-character lower-case hex encoding. -/
def ObjectId.Hex (o : ObjectId) : String :=
  ⟨(List.range 24).map fun i => hexChar (o.val / 16 ^ (23 - i) % 16)⟩

/-- Stored document shape (`todoModel` in the source): `_id`, `title`,
`completed`, `createdAt`. -/
structure todoModel where
  ID : ObjectId
  Title : String
  Completed : Bool
  CreatedAt : Nat
deriving DecidableEq

/-- Wire item shape (`todo` in the source): `id`, `title`, `completed`,
`createdAt`. -/
structure todo where
  ID : String
  Title : String
  Completed : Bool
  CreatedAt : Nat
deriving DecidableEq

/-- A successfully parsed JSON request body: the fields of the `todo`
struct the handlers actually read, each possibly absent. -/
structure reqBody where
  title : Option String
  completed : Option Bool
deriving DecidableEq

/-- Go JSON decoding of a parsed body into the `todo` struct: an absent
field leaves the Go zero value (`""` for strings, `false` for booleans). -/
def decodeTodo (b : reqBody) : todo :=
  { ID := "", Title := b.title.getD "", Completed := b.completed.getD false, CreatedAt := 0 }

/-- A JSON value appearing in a `renderer.M` response map. -/
inductive JVal where
  | s (v : String)
  | null
  | arr (v : List todo)
  | errVal
deriving DecidableEq

/-- A response body: an explicit `renderer.M` object literal, or the JSON
serialization of a raw Go error value passed directly to `rnd.JSON`
(the malformed-body branches of create/update).  Go's JSON decode errors
(`*json.SyntaxError`, `*json.UnmarshalTypeError`, `io.EOF`) marshal to
objects with no `message` field. -/
inductive RespBody where
  | obj (fields : List (String × JVal))
  | goError
deriving DecidableEq

/-- Does the body, as serialized, contain a `message` field? -/
def RespBody.hasMessage : RespBody → Bool
  | .obj fs => fs.any fun p => p.1 == "message"
  | .goError => false

/-- An HTTP response: status code and body. -/
structure Response where
  status : Nat
  body : RespBody
deriving DecidableEq

/-- What a handler invocation does observably: write a response, or panic
(the chi `Recoverer` middleware then answers with a 500 and no handler
body). -/
inductive Outcome where
  | response (r : Response)
  | panic (msg : String)
deriving DecidableEq

/-- `fetchTodos`: list every document; on a driver error answer
`StatusProcessing` (102) with `message`/`error`, else 200 with a `data`
array (initialised to the empty non-nil slice `[]todo{}`, hence `[]` and
never `null` when the collection is empty). -/
def fetchTodos (dberr : Bool) (st : List todoModel) : Outcome × List todoModel :=
  if dberr then
    (.response ⟨102, .obj [("message", .s "Failed to fetch todos"), ("error", .errVal)]⟩, st)
  else
    (.response ⟨200, .obj
      [("data", .arr (st.map fun t => ⟨t.ID.Hex, t.Title, t.Completed, t.CreatedAt⟩))]⟩, st)

/-- `createTodo`: decode the body (failure → 102 with the raw error);
reject an empty title with 400; otherwise insert one document with a
fresh id (`fid`), the decoded title, `Completed := false` and
`CreatedAt := now`, answering 201 with the new id's hex string. -/
def createTodo (dberr : Bool) (body : Option reqBody) (fid : ObjectId) (now : Nat)
    (st : List todoModel) : Outcome × List todoModel :=
  match body with
  | none => (.response ⟨102, .goError⟩, st)
  | some b =>
    let t := decodeTodo b
    if t.Title = "" then
      (.response ⟨400, .obj [("message", .s "The title is required")]⟩, st)
    else
      let tm : todoModel := ⟨fid, t.Title, false, now⟩
      if dberr then
        (.response ⟨102, .obj [("message", .s "Failed to save todo"), ("error", .errVal)]⟩, st)
      else
        (.response ⟨201, .obj
          [("message", .s "Todo created successfully"), ("todo_id", .s tm.ID.Hex)]⟩,
         st ++ [tm])

/-- `DeleteOne` with an `_id` filter: remove the first matching document,
if any. -/
def deleteFirst (oid : ObjectId) : List todoModel → List todoModel
  | [] => []
  | d :: ds => if d.ID = oid then ds else d :: deleteFirst oid ds

/-- `deleteTodo`: reject a malformed id with 400 before touching storage;
otherwise delete at most one matching document and answer 200 whether or
not anything matched. -/
def deleteTodo (dberr : Bool) (id : String) (st : List todoModel) :
    Outcome × List todoModel :=
  if !IsObjectIdHex id then
    (.response ⟨400, .obj [("message", .s "Invalid todo ID")]⟩, st)
  else if dberr then
    (.response ⟨102, .obj [("message", .s "Failed to delete todo"), ("error", .errVal)]⟩, st)
  else
    (.response ⟨200, .obj [("message", .s "Todo deleted successfully")]⟩,
     deleteFirst (ObjectIdHex id) st)

/-- `UpdateOne` with an `_id` filter and `$set {title, completed}`:
replace those two fields of the first matching document, if any. -/
def updateFirst (oid : ObjectId) (ti : String) (c : Bool) :
    List todoModel → List todoModel
  | [] => []
  | d :: ds =>
    if d.ID = oid then { d with Title := ti, Completed := c } :: ds
    else d :: updateFirst oid ti c ds

/-- `updateTodo`: reject an empty path id with 400; decode the body
(failure → 102 with the raw error); reject an empty title with 400; then
call `bson.ObjectIdHex id` — which PANICS on a malformed id (there is no
`IsObjectIdHex` guard here, unlike `deleteTodo`) — and `$set` title and
completed on the matching document, answering 200 whether or not
anything matched. -/
def updateTodo (dberr : Bool) (id : String) (body : Option reqBody)
    (st : List todoModel) : Outcome × List todoModel :=
  if id = "" then
    (.response ⟨400, .obj [("message", .s "The todo ID is required")]⟩, st)
  else
    match body with
    | none => (.response ⟨102, .goError⟩, st)
    | some b =>
      let t := decodeTodo b
      if t.Title = "" then
        (.response ⟨400, .obj [("message", .s "The title is required")]⟩, st)
      else if !IsObjectIdHex id then
        (.panic "invalid input to ObjectIdHex", st)
      else if dberr then
        (.response ⟨102, .obj [("message", .s "Failed to update todo"), ("error", .errVal)]⟩, st)
      else
        (.response ⟨200, .obj [("message", .s "Todo successfully updated")]⟩,
         updateFirst (ObjectIdHex id) t.Title t.Completed st)

/-- The `(_id, createdAt)` pairs of a collection, in order. -/
def idCreated (st : List todoModel) : List (ObjectId × Nat) :=
  st.map fun d => (d.ID, d.CreatedAt)

/-- One handler invocation, as a transition on the stored collection. -/
inductive Step : List todoModel → List todoModel → Prop where
  | fetch (dberr : Bool) (st : List todoModel) : Step st (fetchTodos dberr st).2
  | create (dberr : Bool) (body : Option reqBody) (fid : ObjectId) (now : Nat)
      (st : List todoModel) : Step st (createTodo dberr body fid now st).2
  | update (dberr : Bool) (id : String) (body : Option reqBody)
      (st : List todoModel) : Step st (updateTodo dberr id body st).2
  | delete (dberr : Bool) (id : String) (st : List todoModel) :
      Step st (deleteTodo dberr id st).2

/-- Collections reachable from the empty collection by handler invocations. -/
inductive Reachable : List todoModel → Prop where
  | init : Reachable []
  | step (st st' : List todoModel) : Reachable st → Step st st' → Reachable st'

theorem hex_length (o : ObjectId) : o.Hex.length = 24 := by
  simp [ObjectId.Hex, String.length]

theorem hex_ne_empty (o : ObjectId) : o.Hex ≠ "" := by
  intro h
  have h2 := hex_length o
  rw [h] at h2
  exact absurd h2 (by decide)

theorem valid_id_ne_empty {id : String} (h : IsObjectIdHex id = true) : id ≠ "" := by
  intro he
  subst he
  exact absurd h (by decide)

theorem updateFirst_spec (oid : ObjectId) (ti : String) (c : Bool) (st : List todoModel) :
    (∃ pre d post, st = pre ++ d :: post ∧ d.ID = oid ∧ (∀ e ∈ pre, e.ID ≠ oid) ∧
       updateFirst oid ti c st = pre ++ { d with Title := ti, Completed := c } :: post) ∨
    ((∀ e ∈ st, e.ID ≠ oid) ∧ updateFirst oid ti c st = st) := by
  induction st with
  | nil => exact Or.inr ⟨by simp, rfl⟩
  | cons d ds ih =>
    by_cases h : d.ID = oid
    · refine Or.inl ⟨[], d, ds, rfl, h, by simp, ?_⟩
      simp [updateFirst, h]
    · rcases ih with ⟨pre, e, post, hst, he, hpre, hupd⟩ | ⟨hall, hupd⟩
      · refine Or.inl ⟨d :: pre, e, post, by simp [hst], he, ?_, ?_⟩
        · intro x hx
          rcases List.mem_cons.mp hx with hx | hx
          · exact hx ▸ h
          · exact hpre x hx
        · simp [updateFirst, h, hupd]
      · refine Or.inr ⟨?_, ?_⟩
        · intro x hx
          rcases List.mem_cons.mp hx with hx | hx
          · exact hx ▸ h
          · exact hall x hx
        · simp [updateFirst, h, hupd]

theorem deleteFirst_spec (oid : ObjectId) (st : List todoModel) :
    (∃ pre d post, st = pre ++ d :: post ∧ d.ID = oid ∧ (∀ e ∈ pre, e.ID ≠ oid) ∧
       deleteFirst oid st = pre ++ post) ∨
    ((∀ e ∈ st, e.ID ≠ oid) ∧ deleteFirst oid st = st) := by
  induction st with
  | nil => exact Or.inr ⟨by simp, rfl⟩
  | cons d ds ih =>
    by_cases h : d.ID = oid
    · refine Or.inl ⟨[], d, ds, rfl, h, by simp, ?_⟩
      simp [deleteFirst, h]
    · rcases ih with ⟨pre, e, post, hst, he, hpre, hdel⟩ | ⟨hall, hdel⟩
      · refine Or.inl ⟨d :: pre, e, post, by simp [hst], he, ?_, ?_⟩
        · intro x hx
          rcases List.mem_cons.mp hx with hx | hx
          · exact hx ▸ h
          · exact hpre x hx
        · simp [deleteFirst, h, hdel]
      · refine Or.inr ⟨?_, ?_⟩
        · intro x hx
          rcases List.mem_cons.mp hx with hx | hx
          · exact hx ▸ h
          · exact hall x hx
        · simp [deleteFirst, h, hdel]

theorem updateFirst_idCreated (oid : ObjectId) (ti : String) (c : Bool)
    (st : List todoModel) : idCreated (updateFirst oid ti c st) = idCreated st := by
  induction st with
  | nil => rfl
  | cons d ds ih =>
    by_cases h : d.ID = oid
    · simp [updateFirst, h, idCreated]
    · simp only [updateFirst, if_neg h, idCreated, List.map_cons]
      simpa [idCreated] using ih

theorem deleteFirst_sublist (oid : ObjectId) (st : List todoModel) :
    List.Sublist (deleteFirst oid st) st := by
  induction st with
  | nil => simp [deleteFirst]
  | cons d ds ih =>
    by_cases h : d.ID = oid
    · simp only [deleteFirst, if_pos h]
      exact List.sublist_cons_self d ds
    · simp only [deleteFirst, if_neg h]
      exact List.Sublist.cons₂ d ih

/-- C1: a create request with a well-formed body and a non-empty decoded
title inserts exactly one document — completed forced to `false`
whatever the body's `completed` said, `createdAt` set to the insertion
time — and answers 201 with `todo_id` bound to the fresh id's hex
encoding, which is never the empty string. -/
theorem createTodo_creates (b : reqBody) (fid : ObjectId) (now : Nat)
    (st : List todoModel) (h : (decodeTodo b).Title ≠ "") :
    createTodo false (some b) fid now st =
      (.response ⟨201, .obj [("message", .s "Todo created successfully"),
                             ("todo_id", .s fid.Hex)]⟩,
       st ++ [{ ID := fid, Title := (decodeTodo b).Title, Completed := false,
                CreatedAt := now }]) ∧
    fid.Hex ≠ "" := by
  refine ⟨?_, hex_ne_empty fid⟩
  simp [createTodo, h]

theorem createTodo_creates_witness :
    createTodo false (some ⟨some "buy milk", some true⟩) ⟨5⟩ 7 [] =
      (.response ⟨201, .obj [("message", .s "Todo created successfully"),
                             ("todo_id", .s (ObjectId.Hex ⟨5⟩))]⟩,
       [{ ID := ⟨5⟩, Title := (decodeTodo ⟨some "buy milk", some true⟩).Title,
          Completed := false, CreatedAt := 7 }]) ∧
    ObjectId.Hex ⟨5⟩ ≠ "" := by
  have h := createTodo_creates ⟨some "buy milk", some true⟩ ⟨5⟩ 7 [] (by decide)
  simpa using h

/-- C8: a create request whose body parses but whose decoded title is
empty (missing or `""`) answers 400 with a `message` field and leaves
the collection unchanged. -/
theorem createTodo_empty_title (dberr : Bool) (b : reqBody) (fid : ObjectId)
    (now : Nat) (st : List todoModel) (h : (decodeTodo b).Title = "") :
    createTodo dberr (some b) fid now st =
      (.response ⟨400, .obj [("message", .s "The title is required")]⟩, st) ∧
    RespBody.hasMessage (.obj [("message", .s "The title is required")]) = true := by
  refine ⟨?_, by decide⟩
  simp [createTodo, h]

theorem createTodo_empty_title_witness :
    createTodo false (some ⟨none, some true⟩) ⟨0⟩ 0 [] =
      (.response ⟨400, .obj [("message", .s "The title is required")]⟩, []) ∧
    RespBody.hasMessage (.obj [("message", .s "The title is required")]) = true :=
  createTodo_empty_title false ⟨none, some true⟩ ⟨0⟩ 0 [] (by decide)

/-- C9: listing an empty collection with no storage error answers 200
with a `data` field set to the empty array — present, and not `null`. -/
theorem fetchTodos_empty :
    fetchTodos false [] = (.response ⟨200, .obj [("data", .arr [])]⟩, []) ∧
    JVal.arr [] ≠ JVal.null := ⟨rfl, by decide⟩

/-- C2 counterexample: at the malformed id `"nothex"` with a well-formed
body and non-empty title, the update handler panics inside
`bson.ObjectIdHex` (the recovery middleware then answers 500), while the
delete handler explicitly answers 400 with a message — the two handlers
do not reject an invalid id the same way. -/
theorem updateTodo_invalid_id_cex :
    updateTodo false "nothex" (some ⟨some "t", none⟩) [] =
      (.panic "invalid input to ObjectIdHex", []) ∧
    deleteTodo false "nothex" [] =
      (.response ⟨400, .obj [("message", .s "Invalid todo ID")]⟩, []) ∧
    (updateTodo false "nothex" (some ⟨some "t", none⟩) []).1 ≠
      (deleteTodo false "nothex" []).1 := by
  refine ⟨?_, ?_, ?_⟩ <;> decide

/-- C2 (amended): an update request with a non-empty but malformed path
id, a well-formed body and a non-empty title never reaches the storage
update — the collection is left unchanged — but it fails by panicking in
`bson.ObjectIdHex` (converted to a 500 by the recovery middleware), not
by the explicit HTTP 400 rejection the delete handler performs. -/
theorem updateTodo_invalid_id (dberr : Bool) (id : String) (b : reqBody)
    (st : List todoModel) (hid : IsObjectIdHex id = false) (hne : id ≠ "")
    (ht : (decodeTodo b).Title ≠ "") :
    updateTodo dberr id (some b) st = (.panic "invalid input to ObjectIdHex", st) := by
  simp [updateTodo, hne, ht, hid]

theorem updateTodo_invalid_id_witness :
    updateTodo false "xyz" (some ⟨some "t", none⟩) [] =
      (.panic "invalid input to ObjectIdHex", []) :=
  updateTodo_invalid_id false "xyz" ⟨some "t", none⟩ [] (by decide) (by decide) (by decide)

theorem updateFirst_no_match (oid : ObjectId) (ti : String) (c : Bool)
    (st : List todoModel) (h : ∀ e ∈ st, e.ID ≠ oid) :
    updateFirst oid ti c st = st := by
  induction st with
  | nil => rfl
  | cons d ds ih =>
    have hd : d.ID ≠ oid := h d (List.mem_cons_self d ds)
    simp only [updateFirst, if_neg hd]
    rw [ih fun x hx => h x (List.mem_cons_of_mem d hx)]

theorem updateFirst_append (oid : ObjectId) (ti : String) (c : Bool)
    (pre : List todoModel) (d : todoModel) (post : List todoModel)
    (hpre : ∀ e ∈ pre, e.ID ≠ oid) (hd : d.ID = oid) :
    updateFirst oid ti c (pre ++ d :: post) =
      pre ++ { d with Title := ti, Completed := c } :: post := by
  induction pre with
  | nil => simp [updateFirst, hd]
  | cons e es ih =>
    have he : e.ID ≠ oid := hpre e (List.mem_cons_self e es)
    simp only [List.cons_append, updateFirst, if_neg he]
    exact congrArg (List.cons e) (ih fun x hx => hpre x (List.mem_cons_of_mem e hx))

/-- C4: a successful update (well-formed id, parsed body, non-empty
title, no storage error) answers 200 and replaces exactly the title and
completed fields of the first document whose `_id` matches, keeping its
identifier and createdAt — the ordered `(_id, createdAt)` pairs of the
whole collection are unchanged — and leaving every other document
exactly as it was. -/
theorem updateTodo_frame (id : String) (b : reqBody) (st : List todoModel)
    (hid : IsObjectIdHex id = true) (ht : (decodeTodo b).Title ≠ "") :
    (updateTodo false id (some b) st).1 =
      .response ⟨200, .obj [("message", .s "Todo successfully updated")]⟩ ∧
    idCreated (updateTodo false id (some b) st).2 = idCreated st ∧
    ((∃ pre d post, st = pre ++ d :: post ∧ d.ID = ObjectIdHex id ∧
        (∀ e ∈ pre, e.ID ≠ ObjectIdHex id) ∧
        (updateTodo false id (some b) st).2 =
          pre ++ { d with Title := (decodeTodo b).Title,
                          Completed := (decodeTodo b).Completed } :: post) ∨
     ((∀ e ∈ st, e.ID ≠ ObjectIdHex id) ∧
        (updateTodo false id (some b) st).2 = st)) := by
  have hne := valid_id_ne_empty hid
  have hu : updateTodo false id (some b) st =
      (.response ⟨200, .obj [("message", .s "Todo successfully updated")]⟩,
       updateFirst (ObjectIdHex id) (decodeTodo b).Title (decodeTodo b).Completed st) := by
    simp [updateTodo, hne, ht, hid]
  rw [hu]
  exact ⟨rfl, updateFirst_idCreated _ _ _ _, updateFirst_spec _ _ _ _⟩

theorem updateTodo_frame_witness :
    (updateTodo false "000000000000000000000000" (some ⟨some "new", none⟩)
        [⟨⟨0⟩, "old", true, 3⟩]).1 =
      .response ⟨200, .obj [("message", .s "Todo successfully updated")]⟩ ∧
    idCreated (updateTodo false "000000000000000000000000" (some ⟨some "new", none⟩)
        [⟨⟨0⟩, "old", true, 3⟩]).2 = idCreated [⟨⟨0⟩, "old", true, 3⟩] := by
  have h := updateTodo_frame "000000000000000000000000" ⟨some "new", none⟩
    [⟨⟨0⟩, "old", true, 3⟩] (by decide) (by decide)
  exact ⟨h.1, h.2.1⟩

/-- C5: an update with a well-formed id that matches no stored document,
a parsed body with non-empty title and no storage error leaves the
collection unchanged and answers the exact 200 success response — which
is the response of an update against any collection at all, matched or
not, so a phantom update is indistinguishable from a real one. -/
theorem updateTodo_no_match (id : String) (b : reqBody) (st : List todoModel)
    (hid : IsObjectIdHex id = true) (ht : (decodeTodo b).Title ≠ "")
    (hnm : ∀ e ∈ st, e.ID ≠ ObjectIdHex id) :
    updateTodo false id (some b) st =
      (.response ⟨200, .obj [("message", .s "Todo successfully updated")]⟩, st) ∧
    ∀ st2, (updateTodo false id (some b) st2).1 =
      (updateTodo false id (some b) st).1 := by
  have hne := valid_id_ne_empty hid
  have hresp : ∀ s2 : List todoModel, (updateTodo false id (some b) s2).1 =
      Outcome.response ⟨200, .obj [("message", .s "Todo successfully updated")]⟩ := by
    intro s2
    simp [updateTodo, hne, ht, hid]
  constructor
  · have hu : updateTodo false id (some b) st =
        (.response ⟨200, .obj [("message", .s "Todo successfully updated")]⟩,
         updateFirst (ObjectIdHex id) (decodeTodo b).Title (decodeTodo b).Completed st) := by
      simp [updateTodo, hne, ht, hid]
    rw [hu, updateFirst_no_match _ _ _ _ hnm]
  · intro st2
    rw [hresp st2, hresp st]

theorem updateTodo_no_match_witness :
    updateTodo false "000000000000000000000001" (some ⟨some "t", none⟩)
        [⟨⟨2⟩, "a", false, 1⟩] =
      (.response ⟨200, .obj [("message", .s "Todo successfully updated")]⟩,
       [⟨⟨2⟩, "a", false, 1⟩]) := by
  have h := updateTodo_no_match "000000000000000000000001" ⟨some "t", none⟩
    [⟨⟨2⟩, "a", false, 1⟩] (by decide) (by decide) (by decide)
  exact h.1

/-- C6: a delete with a malformed id answers 400 with a message and
leaves the collection unchanged; with a well-formed id and no storage
error it answers the same 200 success response whether or not anything
matched, removing exactly the first matching document when one exists
and nothing otherwise. -/
theorem deleteTodo_spec (id : String) (st : List todoModel) :
    (IsObjectIdHex id = false →
      deleteTodo false id st =
        (.response ⟨400, .obj [("message", .s "Invalid todo ID")]⟩, st)) ∧
    (IsObjectIdHex id = true →
      (deleteTodo false id st).1 =
        .response ⟨200, .obj [("message", .s "Todo deleted successfully")]⟩ ∧
      ((∃ pre d post, st = pre ++ d :: post ∧ d.ID = ObjectIdHex id ∧
          (∀ e ∈ pre, e.ID ≠ ObjectIdHex id) ∧
          (deleteTodo false id st).2 = pre ++ post) ∨
       ((∀ e ∈ st, e.ID ≠ ObjectIdHex id) ∧ (deleteTodo false id st).2 = st))) := by
  constructor
  · intro h
    simp [deleteTodo, h]
  · intro h
    have hd : deleteTodo false id st =
        (.response ⟨200, .obj [("message", .s "Todo deleted successfully")]⟩,
         deleteFirst (ObjectIdHex id) st) := by
      simp [deleteTodo, h]
    rw [hd]
    exact ⟨rfl, deleteFirst_spec _ _⟩

theorem deleteTodo_spec_witness :
    deleteTodo false "zzz" [⟨⟨2⟩, "a", false, 1⟩] =
      (.response ⟨400, .obj [("message", .s "Invalid todo ID")]⟩,
       [⟨⟨2⟩, "a", false, 1⟩]) ∧
    (deleteTodo false "000000000000000000000002" [⟨⟨2⟩, "a", false, 1⟩]).1 =
      .response ⟨200, .obj [("message", .s "Todo deleted successfully")]⟩ :=
  ⟨(deleteTodo_spec "zzz" [⟨⟨2⟩, "a", false, 1⟩]).1 (by decide),
   ((deleteTodo_spec "000000000000000000000002" [⟨⟨2⟩, "a", false, 1⟩]).2 (by decide)).1⟩

/-- C7 counterexample: the malformed-JSON branch of create hands the raw
decode error to `rnd.JSON`: the response has error status 102 (not 2xx)
and its serialized body — the Go error value, not a `renderer.M` map —
carries no `message` field. -/
theorem error_message_cex :
    (createTodo false none ⟨0⟩ 0 []).1 = .response ⟨102, .goError⟩ ∧
    RespBody.hasMessage RespBody.goError = false ∧
    ¬ (200 ≤ 102 ∧ 102 < 300) := by decide

/-- An outcome in which any non-2xx response either is the serialization
of a raw Go error value or carries a `message` field (a panic produces
no handler response at all). -/
def respOk : Outcome → Prop
  | .response r => (200 ≤ r.status ∧ r.status < 300) ∨ r.body = .goError ∨
      RespBody.hasMessage r.body = true
  | .panic _ => True

/-- C7 (amended): every error (non-2xx) response any of the four
handlers emits through an explicit `renderer.M` map carries a `message`
field; the only exceptions are the malformed-JSON-body branches of
create and update, which serialize the raw decode error — an object
with no `message` field — and the malformed-update-id panic, which
produces no handler response at all. -/
theorem error_message_amended (dberr : Bool) (body : Option reqBody)
    (fid : ObjectId) (now : Nat) (id : String) (st : List todoModel) :
    respOk (fetchTodos dberr st).1 ∧
    respOk (createTodo dberr body fid now st).1 ∧
    respOk (updateTodo dberr id body st).1 ∧
    respOk (deleteTodo dberr id st).1 := by
  refine ⟨?_, ?_, ?_, ?_⟩
  · unfold fetchTodos
    split <;> simp [respOk] <;> decide
  · cases body with
    | none => simp [createTodo, respOk]
    | some b =>
      by_cases h : (decodeTodo b).Title = ""
      · simp [createTodo, h, respOk] <;> decide
      · cases dberr with
        | true => simp [createTodo, h, respOk] <;> decide
        | false => simp [createTodo, h, respOk]
  · by_cases hne : id = ""
    · simp [updateTodo, hne, respOk] <;> decide
    · cases body with
      | none => simp [updateTodo, hne, respOk]
      | some b =>
        by_cases ht : (decodeTodo b).Title = ""
        · simp [updateTodo, hne, ht, respOk] <;> decide
        · cases hid : IsObjectIdHex id with
          | false => simp [updateTodo, hne, ht, hid, respOk]
          | true =>
            cases dberr with
            | true => simp [updateTodo, hne, ht, hid, respOk] <;> decide
            | false => simp [updateTodo, hne, ht, hid, respOk]
  · cases hid : IsObjectIdHex id with
    | false => simp [deleteTodo, hid, respOk] <;> decide
    | true =>
      cases dberr with
      | true => simp [deleteTodo, hid, respOk] <;> decide
      | false => simp [deleteTodo, hid, respOk]

/-- C10: Go JSON decoding fills an omitted `completed` field with the
zero value `false`, so an update whose body omits `completed` is
literally the same operation as one sending `completed = false` — in
particular, a title-only update of the first matching document resets
its completed flag to `false`. -/
theorem updateTodo_omitted_completed (dberr : Bool) (id : String) (ti : String)
    (st : List todoModel) :
    updateTodo dberr id (some ⟨some ti, none⟩) st =
      updateTodo dberr id (some ⟨some ti, some false⟩) st ∧
    (IsObjectIdHex id = true → ti ≠ "" →
      ∀ pre d post, st = pre ++ d :: post → d.ID = ObjectIdHex id →
        (∀ e ∈ pre, e.ID ≠ ObjectIdHex id) →
        (updateTodo false id (some ⟨some ti, none⟩) st).2 =
          pre ++ { d with Title := ti, Completed := false } :: post) := by
  constructor
  · rfl
  · intro hid hti pre d post hst hd hpre
    have hne := valid_id_ne_empty hid
    have ht : (decodeTodo ⟨some ti, none⟩).Title ≠ "" := hti
    have hu : (updateTodo false id (some ⟨some ti, none⟩) st).2 =
        updateFirst (ObjectIdHex id) (decodeTodo ⟨some ti, none⟩).Title
          (decodeTodo ⟨some ti, none⟩).Completed st := by
      simp [updateTodo, hne, ht, hid]
    rw [hu, hst, updateFirst_append _ _ _ pre d post hpre hd]
    simp [decodeTodo]

theorem updateTodo_omitted_completed_witness :
    (updateTodo false "000000000000000000000001" (some ⟨some "t", none⟩)
        [⟨⟨1⟩, "old", true, 3⟩]).2 =
      [{ ID := ⟨1⟩, Title := "t", Completed := false, CreatedAt := 3 }] := by
  have h := (updateTodo_omitted_completed false "000000000000000000000001" "t"
      [⟨⟨1⟩, "old", true, 3⟩]).2 (by decide) (by decide)
      [] ⟨⟨1⟩, "old", true, 3⟩ [] (by simp) (by decide) (by simp)
  simpa using h

theorem fetchTodos_snd (dberr : Bool) (st : List todoModel) :
    (fetchTodos dberr st).2 = st := by
  unfold fetchTodos
  split <;> rfl

theorem createTodo_snd (dberr : Bool) (body : Option reqBody) (fid : ObjectId)
    (now : Nat) (st : List todoModel) :
    (createTodo dberr body fid now st).2 = st ∨
    ∃ b, body = some b ∧ (decodeTodo b).Title ≠ "" ∧
      (createTodo dberr body fid now st).2 =
        st ++ [⟨fid, (decodeTodo b).Title, false, now⟩] := by
  cases body with
  | none => exact Or.inl rfl
  | some b =>
    by_cases h : (decodeTodo b).Title = ""
    · left
      simp [createTodo, h]
    · cases dberr with
      | true =>
        left
        simp [createTodo, h]
      | false =>
        right
        exact ⟨b, rfl, h, by simp [createTodo, h]⟩

theorem updateTodo_snd (dberr : Bool) (id : String) (body : Option reqBody)
    (st : List todoModel) :
    (updateTodo dberr id body st).2 = st ∨
    ∃ b, body = some b ∧ (decodeTodo b).Title ≠ "" ∧
      (updateTodo dberr id body st).2 =
        updateFirst (ObjectIdHex id) (decodeTodo b).Title (decodeTodo b).Completed st := by
  by_cases hne : id = ""
  · left
    simp [updateTodo, hne]
  · cases body with
    | none =>
      left
      simp [updateTodo, hne]
    | some b =>
      by_cases ht : (decodeTodo b).Title = ""
      · left
        simp [updateTodo, hne, ht]
      · cases hid : IsObjectIdHex id with
        | false =>
          left
          simp [updateTodo, hne, ht, hid]
        | true =>
          cases dberr with
          | true =>
            left
            simp [updateTodo, hne, ht, hid]
          | false =>
            right
            exact ⟨b, rfl, ht, by simp [updateTodo, hne, ht, hid]⟩

theorem deleteTodo_snd (dberr : Bool) (id : String) (st : List todoModel) :
    (deleteTodo dberr id st).2 = st ∨
    (deleteTodo dberr id st).2 = deleteFirst (ObjectIdHex id) st := by
  cases hid : IsObjectIdHex id with
  | false =>
    left
    simp [deleteTodo, hid]
  | true =>
    cases dberr with
    | true =>
      left
      simp [deleteTodo, hid]
    | false =>
      right
      simp [deleteTodo, hid]

theorem updateFirst_titles (oid : ObjectId) (ti : String) (c : Bool)
    (st : List todoModel) (hst : ∀ d ∈ st, d.Title ≠ "") (ht : ti ≠ "") :
    ∀ d ∈ updateFirst oid ti c st, d.Title ≠ "" := by
  induction st with
  | nil =>
    intro d hd
    simp [updateFirst] at hd
  | cons e es ih =>
    intro d hd
    by_cases h : e.ID = oid
    · simp only [updateFirst, if_pos h] at hd
      rcases List.mem_cons.mp hd with hde | hde
      · rw [hde]
        exact ht
      · exact hst d (List.mem_cons_of_mem e hde)
    · simp only [updateFirst, if_neg h] at hd
      rcases List.mem_cons.mp hd with hde | hde
      · rw [hde]
        exact hst e (List.mem_cons_self e es)
      · exact ih (fun x hx => hst x (List.mem_cons_of_mem e hx)) d hde

theorem step_titles {s s2 : List todoModel} (h : Step s s2)
    (hs : ∀ d ∈ s, d.Title ≠ "") : ∀ d ∈ s2, d.Title ≠ "" := by
  cases h with
  | fetch dberr st =>
    rw [fetchTodos_snd]
    exact hs
  | create dberr body fid now st =>
    rcases createTodo_snd dberr body fid now s with h2 | ⟨b, hb, ht, h2⟩
    · rw [h2]
      exact hs
    · rw [h2]
      intro d hd
      rcases List.mem_append.mp hd with hd | hd
      · exact hs d hd
      · rw [List.mem_singleton.mp hd]
        exact ht
  | update dberr id body st =>
    rcases updateTodo_snd dberr id body s with h2 | ⟨b, hb, ht, h2⟩
    · rw [h2]
      exact hs
    · rw [h2]
      exact updateFirst_titles _ _ _ _ hs ht
  | delete dberr id st =>
    rcases deleteTodo_snd dberr id s with h2 | h2 <;> rw [h2]
    · exact hs
    · exact fun d hd => hs d ((deleteFirst_sublist _ _).subset hd)

theorem step_idCreated {s s2 : List todoModel} (h : Step s s2) :
    List.Sublist (idCreated s2) (idCreated s) ∨
    ∃ fid now, idCreated s2 = idCreated s ++ [(fid, now)] := by
  cases h with
  | fetch dberr st =>
    left
    rw [fetchTodos_snd]
  | create dberr body fid now st =>
    rcases createTodo_snd dberr body fid now s with h2 | ⟨b, hb, ht, h2⟩
    · left
      rw [h2]
    · right
      refine ⟨fid, now, ?_⟩
      rw [h2]
      simp [idCreated]
  | update dberr id body st =>
    rcases updateTodo_snd dberr id body s with h2 | ⟨b, hb, ht, h2⟩
    · left
      rw [h2]
    · left
      rw [h2, updateFirst_idCreated]
  | delete dberr id st =>
    rcases deleteTodo_snd dberr id s with h2 | h2 <;> left <;> rw [h2]
    exact List.Sublist.map _ (deleteFirst_sublist _ _)

theorem reachable_titles {st : List todoModel} (h : Reachable st) :
    ∀ d ∈ st, d.Title ≠ "" := by
  induction h with
  | init =>
    intro d hd
    simp at hd
  | step s s2 hr hs ih => exact step_titles hs ih

/-- C3: every collection reachable from the empty one by handler
invocations contains only documents with a non-empty title, and any
further invocation either keeps the ordered `(_id, createdAt)` pairs a
sublist of what they were — no surviving document ever changes its
identifier or its createdAt; delete may drop one — or extends them by
exactly one pair belonging to the freshly inserted document, whose
createdAt is its insertion time. -/
theorem stored_invariant (st : List todoModel) (h : Reachable st) :
    (∀ d ∈ st, d.Title ≠ "") ∧
    (∀ s2, Step st s2 →
      List.Sublist (idCreated s2) (idCreated st) ∨
      ∃ fid now, idCreated s2 = idCreated st ++ [(fid, now)]) :=
  ⟨reachable_titles h, fun _ h2 => step_idCreated h2⟩

theorem stored_invariant_witness :
    ({ ID := ⟨5⟩, Title := "buy milk", Completed := false,
       CreatedAt := 7 } : todoModel).Title ≠ "" := by
  have h := stored_invariant (createTodo false (some ⟨some "buy milk", none⟩) ⟨5⟩ 7 []).2
    (Reachable.step [] _ Reachable.init
      (Step.create false (some ⟨some "buy milk", none⟩) ⟨5⟩ 7 []))
  exact h.1 _ (by decide)

end ToDoList
